import Mathlib

/-!
Shallow embedding of claude-cache-service.

Time is modelled as an abstract integer clock: every Go call to `time.Now()`
becomes an explicit `now : Int` argument.  Durations (`time.Duration`) are
likewise `Int` (Go durations are int64 nanoseconds); `ttl == 0` keeps its Go
meaning of "never expires".  Strings keep Go's byte-length semantics via
`String.utf8ByteSize`.  Go maps are modelled as association lists with
insert-or-overwrite (`mapSet`) semantics; iteration order is the insertion
order.  Storage I/O of the underlying buntdb engine is assumed to succeed
(the only storage errors in scope are buntdb's own `ErrNotFound`, which is
modelled), and external collaborators (git, HTTP, the filesystem, RFC3339
parsing) are passed in as oracle functions describing their outcomes.
-/

/-- Insert-or-overwrite on an association list, the model of Go `m[k] = v`:
the first binding of the key is replaced, otherwise the binding is appended. -/
def mapSet {α : Type} : List (String × α) → String → α → List (String × α)
  | [], key, v => [(key, v)]
  | (k, old) :: rest, key, v =>
    if k == key then (key, v) :: rest else (k, old) :: mapSet rest key v

/-- Lookup on an association list, the model of Go `m[k]` (first binding wins). -/
def mapLookup {α : Type} : List (String × α) → String → Option α
  | [], _ => none
  | (k, v) :: rest, key => if k == key then some v else mapLookup rest key

/-- Removal of a key from an association list together with the flag telling
whether a binding was actually removed (buntdb `tx.Delete` reports
`ErrNotFound` exactly when it was not). -/
def mapDelete {α : Type} : List (String × α) → String → List (String × α) × Bool
  | [], _ => ([], false)
  | (k, v) :: rest, key =>
    if k == key then (rest, true)
    else
      let r := mapDelete rest key
      ((k, v) :: r.1, r.2)

namespace cache

/-- internal/cache: `CacheEntry` (the JSON-encoded value stored per key). -/
structure CacheEntry where
  key : String
  value : String
  createdAt : Int
  updatedAt : Int
  hitCount : Int
  size : Int
  ttl : Int
  deriving DecidableEq

/-- internal/cache: `Statistics` (the counters; the `sync.RWMutex` guards
concurrent access and has no sequential content). Counters are `Int` exactly
like Go's `int64`: decrements below zero are representable. -/
structure Statistics where
  hits : Int
  misses : Int
  sets : Int
  deletes : Int
  totalSize : Int
  itemCount : Int
  deriving DecidableEq

/-- One row of the buntdb keyspace: the unmarshalled `CacheEntry` (JSON
round-tripping is the identity for this struct) plus buntdb's own optional
expire-at metadata coming from `buntdb.SetOptions{Expires, TTL}`. -/
structure DBItem where
  entry : CacheEntry
  expiresAt : Option Int
  deriving DecidableEq

/-- buntdb hides an item once its own TTL metadata has lapsed
(`time.Now().After(exat)`, a strict comparison). -/
def DBItem.buntdbExpired (it : DBItem) (now : Int) : Bool :=
  match it.expiresAt with
  | some t => decide (t < now)
  | none => false

/-- Model of `tx.Get`: `ErrNotFound` (here `none`) for absent keys and for
items buntdb itself already considers expired. -/
def dbGet (db : List (String × DBItem)) (key : String) (now : Int) :
    Option CacheEntry :=
  match mapLookup db key with
  | none => none
  | some it => if it.buntdbExpired now then none else some it.entry

/-- internal/cache: `Manager` (the zerolog logger carries no state that the
claims depend on and is omitted). -/
structure Manager where
  db : List (String × DBItem)
  stats : Statistics
  deriving DecidableEq

/-- `Manager.recordHit`. -/
def Manager.recordHit (m : Manager) : Manager :=
  { m with stats := { m.stats with hits := m.stats.hits + 1 } }

/-- `Manager.recordMiss`. -/
def Manager.recordMiss (m : Manager) : Manager :=
  { m with stats := { m.stats with misses := m.stats.misses + 1 } }

/-- `Manager.recordSet`: unconditionally bumps `Sets`, adds the new entry's
size to `TotalSize` and increments `ItemCount`. -/
def Manager.recordSet (m : Manager) (size : Int) : Manager :=
  { m with stats := { m.stats with
      sets := m.stats.sets + 1,
      totalSize := m.stats.totalSize + size,
      itemCount := m.stats.itemCount + 1 } }

/-- `Manager.recordDelete`: unconditionally bumps `Deletes` and decrements
`ItemCount`. -/
def Manager.recordDelete (m : Manager) : Manager :=
  { m with stats := { m.stats with
      deletes := m.stats.deletes + 1,
      itemCount := m.stats.itemCount - 1 } }

/-- The lazy-expiry check on `Manager.Get`'s read path:
`entry.TTL > 0 && time.Since(entry.UpdatedAt) > entry.TTL`. -/
def getExpiryCheck (ttl updatedAt now : Int) : Bool :=
  decide (0 < ttl) && decide (ttl < now - updatedAt)

/-- The deletion condition applied by `Manager.cleanup`:
`entry.TTL > 0 && now.Sub(entry.UpdatedAt) > entry.TTL`. -/
def cleanupExpiryCheck (ttl updatedAt now : Int) : Bool :=
  decide (0 < ttl) && decide (ttl < now - updatedAt)

/-- The error surface of `Manager.Get` reachable in the model:
`fmt.Errorf("key not found: %s", key)`. -/
inductive GetErr where
  | keyNotFound (key : String)
  deriving DecidableEq

/-- `Manager.Get`.  On a hit the Go code also spawns
`go m.incrementHitCount(key)`; that detached, best-effort update is modelled
by the separate transition `Manager.incrementHitCount` below. -/
def Manager.get (m : Manager) (key : String) (now : Int) :
    Except GetErr String × Manager :=
  match dbGet m.db key now with
  | none => (.error (.keyNotFound key), m.recordMiss)
  | some entry =>
    if getExpiryCheck entry.ttl entry.updatedAt now then
      (.error (.keyNotFound key), m.recordMiss)
    else
      (.ok entry.value, m.recordHit)

/-- `Manager.Set`: builds a fresh entry with `CreatedAt = UpdatedAt = now`,
hit count 0 and `Size = len(value)`, stores it under the key (overwriting any
previous binding, with buntdb expiry metadata when `ttl > 0`), then calls
`recordSet`. -/
def Manager.set (m : Manager) (key value : String) (ttl now : Int) : Manager :=
  let entry : CacheEntry :=
    { key := key, value := value, createdAt := now, updatedAt := now,
      hitCount := 0, size := (value.utf8ByteSize : Int), ttl := ttl }
  let it : DBItem :=
    { entry := entry,
      expiresAt := if 0 < ttl then some (now + ttl) else none }
  ({ m with db := mapSet m.db key it } : Manager).recordSet entry.size

/-- `Manager.Delete`: `tx.Delete`'s `ErrNotFound` is swallowed
(`err != nil && err != buntdb.ErrNotFound` is the only returning branch, and
in the model the only possible error is `ErrNotFound`), and `recordDelete`
runs unconditionally afterwards; the returned Go error (`none` = nil) is the
first component. -/
def Manager.delete (m : Manager) (key : String) : Option String × Manager :=
  let r := mapDelete m.db key
  (none, ({ m with db := r.1 } : Manager).recordDelete)

/-- `Manager.incrementHitCount`: re-reads the entry, bumps `HitCount`, sets
`UpdatedAt` to the current time and stores it back with `tx.Set(key, data,
nil)` — nil options, so buntdb's own expiry metadata is cleared. -/
def Manager.incrementHitCount (m : Manager) (key : String) (now : Int) :
    Except GetErr Manager :=
  match dbGet m.db key now with
  | none => .error (.keyNotFound key)
  | some entry =>
    let e2 := { entry with hitCount := entry.hitCount + 1, updatedAt := now }
    .ok { m with db := mapSet m.db key { entry := e2, expiresAt := none } }

/-- `Manager.cleanup` (the body the hourly `cleanupRoutine` ticker runs):
scans all rows and deletes exactly those whose entry satisfies the cleanup
expiry condition.  Statistics are not touched. -/
def Manager.cleanup (m : Manager) (now : Int) : Manager :=
  let keep : String × DBItem → Bool :=
    fun kv => !(cleanupExpiryCheck kv.2.entry.ttl kv.2.entry.updatedAt now)
  { m with db := m.db.filter keep }

/-- A fresh manager as produced by `NewManager`: empty keyspace, zero
statistics. -/
def freshManager : Manager :=
  { db := [], stats := ⟨0, 0, 0, 0, 0, 0⟩ }

end cache

namespace claude

/-- internal/claude: `maxRetries` constant. -/
def maxRetries : Nat := 3

/-- internal/claude: `RetryDelay = time.Second`, in nanoseconds. -/
def RetryDelay : Nat := 1000000000

/-- internal/claude: `Usage`. -/
structure Usage where
  inputTokens : Nat
  outputTokens : Nat
  deriving DecidableEq

/-- internal/claude: `ContentBlock`. -/
structure ContentBlock where
  type : String
  text : String
  deriving DecidableEq

/-- internal/claude: `Response`. -/
structure Response where
  id : String
  type : String
  role : String
  content : List ContentBlock
  model : String
  usage : Usage
  deriving DecidableEq

/-- internal/claude: `APIError` (a non-200 HTTP response). -/
structure APIError where
  statusCode : Nat
  type : String
  message : String
  deriving DecidableEq

/-- The errors a single `doRequest` attempt can produce: a decoded `APIError`
for a non-200 status, or a transport-level failure (network error, bad body,
…) carrying its message. -/
inductive ReqError where
  | apiError (e : APIError)
  | transport (msg : String)
  deriving DecidableEq

/-- internal/claude: `isRetryableError` — anything that is not an `*APIError`
is retryable, and an `APIError` is retryable iff its status is 429 or ≥ 500. -/
def isRetryableError : ReqError → Bool
  | .transport _ => true
  | .apiError e => e.statusCode == 429 || decide (500 ≤ e.statusCode)

/-- The error surface of `Client.SendMessage` reachable in the model (no
context cancellation): the terminal error returned verbatim from a
non-retryable attempt, or `fmt.Errorf("max retries exceeded: %w", lastErr)`
after the loop exhausts (`none` is Go's nil `lastErr`, only possible if the
loop never ran). -/
inductive SendError where
  | terminal (e : ReqError)
  | maxRetriesExceeded (last : Option ReqError)
  deriving DecidableEq

/-- Observable events of one `SendMessage` call: a rate-limiter token
acquisition (`limiter.Wait`), an HTTP attempt (`doRequest`, numbered by the
loop counter), and a backoff sleep of the given duration. -/
inductive ClientEvent where
  | acquireToken
  | httpAttempt (i : Nat)
  | sleep (d : Nat)
  deriving DecidableEq

/-- The retry loop of `Client.SendMessage`
(`for attempt := 0; attempt < maxRetries; attempt++`), over an oracle giving
each attempt's `doRequest` outcome.  `fuel` is the number of remaining loop
iterations (`maxRetries - attempt`); `lastErr` starts as Go's nil.  Returns
the result together with the trace of events the loop emits.  Note the code
sleeps after every retryable failure, including the final one. -/
def sendAttempts (doReq : Nat → Except ReqError Response) :
    Nat → Nat → Option ReqError →
    Except SendError Response × List ClientEvent
  | _, 0, lastErr => (.error (.maxRetriesExceeded lastErr), [])
  | attempt, fuel + 1, _ =>
    match doReq attempt with
    | .ok resp => (.ok resp, [.httpAttempt attempt])
    | .error e =>
      if isRetryableError e then
        let r := sendAttempts doReq (attempt + 1) fuel (some e)
        (r.1, .httpAttempt attempt :: .sleep (RetryDelay * 2 ^ attempt) :: r.2)
      else
        (.error (.terminal e), [.httpAttempt attempt])

/-- internal/claude: `Client.SendMessage` — waits on the rate limiter once,
then runs the retry loop.  The trace records the single token acquisition
followed by the loop's events. -/
def sendMessage (doReq : Nat → Except ReqError Response) :
    Except SendError Response × List ClientEvent :=
  let r := sendAttempts doReq 0 maxRetries none
  (r.1, .acquireToken :: r.2)

end claude

namespace analyzer

/-- internal/analyzer: `TransportDetails`. -/
structure TransportDetails where
  type : String
  protocols : List String
  retryMechanism : String
  queueImplementation : String
  deriving DecidableEq

/-- internal/analyzer: `ErrorPattern`. -/
structure ErrorPattern where
  name : String
  pattern : String
  description : String
  deriving DecidableEq

/-- internal/analyzer: `CachingPattern`. -/
structure CachingPattern where
  type : String
  location : String
  description : String
  deriving DecidableEq

/-- internal/analyzer: `SDKAnalysis`. -/
structure SDKAnalysis where
  language : String
  envelopeFormat : String
  transport : TransportDetails
  eventTypes : List String
  errorPatterns : List ErrorPattern
  integrations : List String
  features : List String
  protocolVersion : String
  cachingPatterns : List CachingPattern
  tokensUsed : Nat
  analyzedAt : Int
  analysisVersion : String
  deriving DecidableEq

/-- internal/analyzer: `AnalysisRequest`. -/
structure AnalysisRequest where
  sdkName : String
  version : String
  code : List (String × String)
  commitHash : String
  deriving DecidableEq

/-- internal/analyzer: `BatchAnalysisResult`. -/
structure BatchAnalysisResult where
  jobID : String
  status : String
  results : List (String × SDKAnalysis)
  errors : List (String × String)
  totalTokens : Nat
  completedAt : Option Int
  deriving DecidableEq

/-- internal/analyzer: `generateJobID` (`fmt.Sprintf("job_%d",
time.Now().UnixNano())`). -/
def generateJobID (now : Int) : String :=
  "job_" ++ toString now

/-- The sequential loop inside `ClaudeAnalyzer.BatchAnalyze`, over an oracle
giving each `AnalyzeCode` outcome (success, or the error message recorded in
the errors map).  Accumulates the results map, the errors map and
`totalTokens` exactly as the Go loop does. -/
def batchLoop (analyzeCode : AnalysisRequest → Except String SDKAnalysis) :
    List AnalysisRequest →
    List (String × SDKAnalysis) → List (String × String) → Nat →
    List (String × SDKAnalysis) × List (String × String) × Nat
  | [], results, errors, totalTokens => (results, errors, totalTokens)
  | req :: rest, results, errors, totalTokens =>
    match analyzeCode req with
    | .error err =>
      batchLoop analyzeCode rest results (mapSet errors req.sdkName err)
        totalTokens
    | .ok analysis =>
      batchLoop analyzeCode rest (mapSet results req.sdkName analysis) errors
        (totalTokens + analysis.tokensUsed)

/-- internal/analyzer: `ClaudeAnalyzer.BatchAnalyze` — creates a job in
status "processing", runs every request through `AnalyzeCode` (failures go
into the errors map and the loop continues), then marks the job "completed"
with `CompletedAt = now` and returns it with a nil error (`Except.ok`). -/
def ClaudeAnalyzer.batchAnalyze
    (analyzeCode : AnalysisRequest → Except String SDKAnalysis)
    (requests : List AnalysisRequest) (now : Int) :
    Except String BatchAnalysisResult :=
  let r := batchLoop analyzeCode requests [] [] 0
  .ok { jobID := generateJobID now, status := "completed", results := r.1,
        errors := r.2.1, totalTokens := r.2.2, completedAt := some now }

end analyzer

namespace worker

/-- internal/worker: `findSubstring` — the index of the first occurrence of
`substr` in `s`, or −1.  (Go indexes bytes; for the ASCII needles
`detectLanguage` uses, character indexing agrees.) -/
def findSubstring (s substr : String) : Int :=
  match (List.range (s.length - substr.length + 1)).find?
      (fun i => (s.toList.drop i).take substr.length == substr.toList) with
  | some i => (i : Int)
  | none => -1

/-- internal/worker: `contains`. -/
def contains (s substr : String) : Bool :=
  decide (substr.length ≤ s.length) && !(findSubstring s substr == -1)

/-- internal/worker: `detectLanguage` — keyed off substrings of the SDK
name. -/
def detectLanguage (sdkName : String) : String :=
  if contains sdkName "python" then "python"
  else if contains sdkName "javascript" || contains sdkName "js" then
    "javascript"
  else if contains sdkName "go" then "go"
  else if contains sdkName "java" then "java"
  else if contains sdkName "ruby" then "ruby"
  else if contains sdkName "php" then "php"
  else if contains sdkName "dotnet" || contains sdkName "csharp" then "csharp"
  else "unknown"

/-- internal/worker: `mockAnalyzer.AnalyzeCode` — always succeeds with the
fixed mock analysis (language detected from the SDK name, zero tokens,
`AnalysisVersion = "mock-1.0.0"`). -/
def mockAnalyzeCode (request : analyzer.AnalysisRequest) (now : Int) :
    Except String analyzer.SDKAnalysis :=
  .ok
    { language := detectLanguage request.sdkName,
      envelopeFormat := "JSON envelope with headers and items array",
      transport :=
        { type := "http", protocols := ["https"],
          retryMechanism := "exponential backoff with jitter",
          queueImplementation := "in-memory queue with disk overflow" },
      eventTypes := ["error", "transaction", "profile", "metric"],
      errorPatterns :=
        [{ name := "structured_errors",
           pattern := "Error\x7btype, message, stacktrace\x7d",
           description := "Structured error handling with full context" }],
      integrations := ["logging", "http", "database"],
      features := ["breadcrumbs", "attachments", "sessions",
        "release_tracking"],
      protocolVersion := "7",
      cachingPatterns :=
        [{ type := "envelope_buffer", location := "transport",
           description := "Buffers envelopes during network failures" }],
      tokensUsed := 0, analyzedAt := now, analysisVersion := "mock-1.0.0" }

/-- The loop inside `mockAnalyzer.BatchAnalyze`: each request goes through
`mockAnalyzeCode`, errors (unreachable for the mock) would land in the
errors map. -/
def mockBatchLoop (now : Int) : List analyzer.AnalysisRequest →
    List (String × analyzer.SDKAnalysis) → List (String × String) →
    List (String × analyzer.SDKAnalysis) × List (String × String)
  | [], results, errors => (results, errors)
  | req :: rest, results, errors =>
    match mockAnalyzeCode req now with
    | .error err => mockBatchLoop now rest results (mapSet errors req.sdkName err)
    | .ok analysis =>
      mockBatchLoop now rest (mapSet results req.sdkName analysis) errors

/-- internal/worker: `mockAnalyzer.BatchAnalyze` — job id
`fmt.Sprintf("mock-job-%d", time.Now().Unix())`, status "completed" from
creation, `TotalTokens` left at its zero value, nil error. -/
def mockBatchAnalyze (requests : List analyzer.AnalysisRequest) (now : Int) :
    Except String analyzer.BatchAnalysisResult :=
  let r := mockBatchLoop now requests [] []
  .ok { jobID := "mock-job-" ++ toString now, status := "completed",
        results := r.1, errors := r.2, totalTokens := 0,
        completedAt := some now }

end worker

namespace git

/-- internal/git: `Commit`. -/
structure Commit where
  hash : String
  author : String
  message : String
  timestamp : Int
  files : List String
  deriving DecidableEq

end git

namespace sdk

/-- internal/sdk: `Config` (one catalog entry of sdks.yaml). -/
structure Config where
  name : String
  url : String
  language : String
  patterns : List String
  keyFiles : List String
  branch : String
  active : Bool
  deriving DecidableEq

/-- Go's zero `Config`, what `sdkMap[name]` yields for a missing key. -/
def zeroConfig : Config :=
  { name := "", url := "", language := "", patterns := [], keyFiles := [],
    branch := "", active := false }

/-- internal/sdk: `AnalysisResult`. -/
structure AnalysisResult where
  sdk : Config
  analysis : Option analyzer.SDKAnalysis
  error : Option String
  deriving DecidableEq

/-- Oracle describing the outcomes of the I/O collaborators
`Analyzer.analyzeBatch` / `Analyzer.AnalyzeSDK` consult per SDK:
`git.Clone` (url, branch), `git.GetRepoPath`, `Analyzer.extractCodeFiles`
(filesystem reads under the repo path) and `git.GetLatestCommit`.  Errors
carry the Go error message. -/
structure GitOracle where
  clone : String → String → Except String Unit
  getRepoPath : String → String
  extractCodeFiles : String → Config → Except String (List (String × String))
  getLatestCommit : String → Except String git.Commit

/-- The branch `analyzeBatch`/`AnalyzeSDK` use: the config's branch, or
"main" when empty. -/
def branchOf (c : Config) : String :=
  if c.branch == "" then "main" else c.branch

/-- The request-building phase of `Analyzer.analyzeBatch`: for each SDK,
clone, extract and read the latest commit; any failure is logged and the SDK
is skipped (`continue`) — it contributes neither a request nor an error.
On success the request is appended and the SDK recorded in `sdkMap`. -/
def buildRequestsLoop (g : GitOracle) : List Config →
    List analyzer.AnalysisRequest → List (String × Config) →
    List analyzer.AnalysisRequest × List (String × Config)
  | [], reqs, m => (reqs, m)
  | c :: rest, reqs, m =>
    match g.clone c.url (branchOf c) with
    | .error _ => buildRequestsLoop g rest reqs m
    | .ok _ =>
      let repoPath := g.getRepoPath c.url
      match g.extractCodeFiles repoPath c with
      | .error _ => buildRequestsLoop g rest reqs m
      | .ok codeFiles =>
        match g.getLatestCommit repoPath with
        | .error _ => buildRequestsLoop g rest reqs m
        | .ok commit =>
          let req : analyzer.AnalysisRequest :=
            { sdkName := c.name, version := commit.hash.take 7,
              code := codeFiles, commitHash := commit.hash }
          buildRequestsLoop g rest (reqs ++ [req]) (mapSet m c.name c)

/-- internal/sdk: `Analyzer.AnalyzeSDK` — the one-by-one path: clone,
extract, read the latest commit, then `AnalyzeCode`; each failure is wrapped
with its operation context and returned. -/
def analyzeSDK (g : GitOracle)
    (analyzeCode : analyzer.AnalysisRequest → Except String analyzer.SDKAnalysis)
    (c : Config) : Except String analyzer.SDKAnalysis :=
  match g.clone c.url (branchOf c) with
  | .error e => .error ("failed to clone/update repository: " ++ e)
  | .ok _ =>
    let repoPath := g.getRepoPath c.url
    match g.extractCodeFiles repoPath c with
    | .error e => .error ("failed to extract code files: " ++ e)
    | .ok codeFiles =>
      match g.getLatestCommit repoPath with
      | .error e => .error ("failed to get latest commit: " ++ e)
      | .ok commit =>
        match analyzeCode
            { sdkName := c.name, version := commit.hash.take 7,
              code := codeFiles, commitHash := commit.hash } with
        | .error e => .error ("failed to analyze SDK: " ++ e)
        | .ok analysis => .ok analysis

/-- internal/sdk: `Analyzer.analyzeBatch` — builds the requests, submits
them through the analyzer's `BatchAnalyze` (`batchFn`); only if that returns
a non-nil error does it fall back to one-by-one `AnalyzeSDK` submission,
otherwise it converts the batch results and errors maps into
`AnalysisResult`s.  The Boolean records whether the fallback branch ran. -/
def analyzeBatch (g : GitOracle)
    (batchFn : List analyzer.AnalysisRequest →
      Except String analyzer.BatchAnalysisResult)
    (analyzeCode : analyzer.AnalysisRequest → Except String analyzer.SDKAnalysis)
    (sdks : List Config) : List AnalysisResult × Bool :=
  let built := buildRequestsLoop g sdks [] []
  match batchFn built.1 with
  | .error _ =>
    (sdks.map (fun c =>
      match analyzeSDK g analyzeCode c with
      | .ok analysis => { sdk := c, analysis := some analysis, error := none }
      | .error e => { sdk := c, analysis := none, error := some e }), true)
  | .ok batchResult =>
    (batchResult.results.map (fun p =>
        ({ sdk := (mapLookup built.2 p.1).getD zeroConfig,
           analysis := some p.2, error := none } : AnalysisResult))
      ++ batchResult.errors.map (fun p =>
        ({ sdk := (mapLookup built.2 p.1).getD zeroConfig,
           analysis := none, error := some p.2 } : AnalysisResult)), false)

/-- internal/sdk: `Analyzer.NeedsUpdate` — consults the cache under
`sdk:<name>:last_analyzed`, parses it as RFC3339 (`parseTime` oracle, `none`
for unparseable), checks the local repo copy (`repoExists`, the `os.Stat`
outcome), then asks git for the commits since that timestamp
(`getCommitsSince` oracle); `git.Pull`'s outcome is only logged and does not
affect the result. -/
def needsUpdate (m : cache.Manager) (parseTime : String → Option Int)
    (repoExists : Bool) (getCommitsSince : Int → Except String (List git.Commit))
    (sdkName : String) (now : Int) : Except String Bool :=
  match (m.get ("sdk:" ++ sdkName ++ ":last_analyzed") now).1 with
  | .error _ => .ok true
  | .ok lastAnalyzedStr =>
    match parseTime lastAnalyzedStr with
    | none => .ok true
    | some lastAnalyzed =>
      if !repoExists then .ok true
      else
        match getCommitsSince lastAnalyzed with
        | .error e => .error ("failed to check for updates: " ++ e)
        | .ok commits => .ok (decide (0 < commits.length))

end sdk

/-- The number of rate-limiter token acquisitions in a client event trace. -/
def countToken : List claude.ClientEvent → Nat
  | [] => 0
  | claude.ClientEvent.acquireToken :: rest => countToken rest + 1
  | _ :: rest => countToken rest

/-- Concrete `doRequest` oracle: the server answers 500 on every attempt. -/
def always500 : Nat → Except claude.ReqError claude.Response :=
  fun _ => .error (.apiError ⟨500, "api_error", "internal server error"⟩)

/-- Concrete `doRequest` oracle: the server answers 400 on every attempt. -/
def always400 : Nat → Except claude.ReqError claude.Response :=
  fun _ => .error (.apiError ⟨400, "invalid_request_error", "bad request"⟩)

/-- Concrete catalog entry whose repository clone will fail. -/
def cexA : sdk.Config :=
  { name := "sdk-a", url := "urlA", language := "go", patterns := ["*.go"],
    keyFiles := [], branch := "", active := true }

/-- Concrete catalog entry whose extraction pipeline succeeds. -/
def cexB : sdk.Config :=
  { name := "sdk-b", url := "urlB", language := "go", patterns := ["*.go"],
    keyFiles := [], branch := "", active := true }

/-- Concrete git oracle: cloning `urlA` fails, everything else succeeds. -/
def cexOracle : sdk.GitOracle :=
  { clone := fun url _ =>
      if url == "urlA" then .error "exit status 128" else .ok (),
    getRepoPath := fun url => url ++ "/repo",
    extractCodeFiles := fun _ _ => .ok [("main.go", "package main")],
    getLatestCommit := fun _ =>
      .ok { hash := "abcdef1234", author := "a", message := "m",
            timestamp := 0, files := [] } }

/-- Concrete `AnalyzeCode` oracle that always succeeds (the mock analysis). -/
def cexAnalyze : analyzer.AnalysisRequest → Except String analyzer.SDKAnalysis :=
  fun r => worker.mockAnalyzeCode r 0

/-- Concrete `AnalyzeCode` oracle that fails exactly on the SDK named
"bad". -/
def cexFailingAnalyze :
    analyzer.AnalysisRequest → Except String analyzer.SDKAnalysis :=
  fun r => if r.sdkName == "bad" then .error "boom"
    else worker.mockAnalyzeCode r 0

/-- Concrete analysis request for the SDK "good". -/
def reqGood : analyzer.AnalysisRequest :=
  { sdkName := "good", version := "1", code := [("a.go", "package a")],
    commitHash := "c1" }

/-- Concrete analysis request for the SDK "bad". -/
def reqBad : analyzer.AnalysisRequest :=
  { sdkName := "bad", version := "1", code := [("b.go", "package b")],
    commitHash := "c2" }

/-- Manager with the single entry Set("k", "aa", 0) at time 0 overwritten by
Set("k", "bbb", 0) at time 5. -/
def c1mgr : cache.Manager :=
  (cache.freshManager.set "k" "aa" 0 0).set "k" "bbb" 0 5

/-- Manager with the single entry Set("k", "v", ttl 10) at time 0: the input
of the hit-count-bump witness. -/
def c8mgr : cache.Manager :=
  cache.freshManager.set "k" "v" 10 0

/-- The entry `c8mgr` stores under "k". -/
def c8entry : cache.CacheEntry :=
  { key := "k", value := "v", createdAt := 0, updatedAt := 0, hitCount := 0,
    size := 1, ttl := 10 }

theorem mapLookup_mapSet_self {α : Type} (m : List (String × α)) (k : String)
    (v : α) : mapLookup (mapSet m k v) k = some v := by
  induction m with
  | nil => simp [mapSet, mapLookup]
  | cons hd t ih =>
    obtain ⟨k', v'⟩ := hd
    cases hk : (k' == k) with
    | true => simp [mapSet, hk, mapLookup]
    | false => simp [mapSet, hk, mapLookup, ih]

theorem mapLookup_eq_none_of_not_mem {α : Type} (m : List (String × α))
    (k : String) (h : k ∉ m.map Prod.fst) : mapLookup m k = none := by
  induction m with
  | nil => rfl
  | cons hd t ih =>
    obtain ⟨k', v'⟩ := hd
    simp only [List.map_cons, List.mem_cons] at h
    push_neg at h
    have hk : (k' == k) = false := by
      refine beq_eq_false_iff_ne.mpr ?_
      exact fun e => h.1 e.symm
    simp [mapLookup, hk, ih h.2]

theorem mem_keys_mapSet {α : Type} (m : List (String × α)) (k a : String)
    (v : α) (h : a ∈ (mapSet m k v).map Prod.fst) :
    a ∈ m.map Prod.fst ∨ a = k := by
  induction m with
  | nil =>
    right
    simpa [mapSet] using h
  | cons hd t ih =>
    obtain ⟨k', v'⟩ := hd
    cases hk : (k' == k) with
    | true =>
      simp only [mapSet, hk, if_pos, List.map_cons, List.mem_cons] at h
      rcases h with h | h
      · right; exact h
      · left; simp [h]
    | false =>
      simp only [mapSet, hk] at h
      simp only [Bool.false_eq_true, if_false, List.map_cons,
        List.mem_cons] at h
      rcases h with h | h
      · left; simp [h]
      · rcases ih h with h' | h'
        · left; simp [h']
        · right; exact h'

theorem nodup_keys_mapSet {α : Type} (m : List (String × α)) (k : String)
    (v : α) (h : (m.map Prod.fst).Nodup) :
    ((mapSet m k v).map Prod.fst).Nodup := by
  induction m with
  | nil => simp [mapSet]
  | cons hd t ih =>
    obtain ⟨k', v'⟩ := hd
    simp only [List.map_cons, List.nodup_cons] at h
    cases hk : (k' == k) with
    | true =>
      have hkk : k' = k := by simpa using hk
      subst hkk
      simp only [mapSet, hk, if_pos, List.map_cons, List.nodup_cons]
      exact ⟨h.1, h.2⟩
    | false =>
      simp only [mapSet, hk, Bool.false_eq_true, if_false, List.map_cons,
        List.nodup_cons]
      refine ⟨?_, ih h.2⟩
      intro hmem
      rcases mem_keys_mapSet t k k' v hmem with h' | h'
      · exact h.1 h'
      · rw [h'] at hk
        simp at hk

theorem mapSet_eq_append {α : Type} (m : List (String × α)) (k : String)
    (v : α) (h : k ∉ m.map Prod.fst) : mapSet m k v = m ++ [(k, v)] := by
  induction m with
  | nil => rfl
  | cons hd t ih =>
    obtain ⟨k', v'⟩ := hd
    simp only [List.map_cons, List.mem_cons] at h
    push_neg at h
    have hk : (k' == k) = false := by
      refine beq_eq_false_iff_ne.mpr ?_
      exact fun e => h.1 e.symm
    simp [mapSet, hk, ih h.2]

theorem mapLookup_filter_nodup {α : Type} (p : String × α → Bool)
    (m : List (String × α)) (k : String) (h : (m.map Prod.fst).Nodup) :
    mapLookup (m.filter p) k =
      match mapLookup m k with
      | some v => if p (k, v) then some v else none
      | none => none := by
  induction m with
  | nil => rfl
  | cons hd t ih =>
    obtain ⟨k', v'⟩ := hd
    simp only [List.map_cons, List.nodup_cons] at h
    cases hk : (k' == k) with
    | true =>
      have hkk : k' = k := by simpa using hk
      subst hkk
      cases hp : p (k', v') with
      | true => simp [List.filter_cons, hp, mapLookup, hk]
      | false =>
        have hnone : mapLookup (t.filter p) k' = none := by
          refine mapLookup_eq_none_of_not_mem _ _ ?_
          intro hmem
          apply h.1
          obtain ⟨x, hx, hfx⟩ := List.mem_map.mp hmem
          exact List.mem_map.mpr ⟨x, List.mem_of_mem_filter hx, hfx⟩
        simp [List.filter_cons, hp, mapLookup, hk, hnone]
    | false =>
      cases hp : p (k', v') with
      | true => simp [List.filter_cons, hp, mapLookup, hk, ih h.2]
      | false => simp [List.filter_cons, hp, mapLookup, hk, ih h.2]




/-- C1 counterexample: overwriting the key "k" (value "aa" written at time 0,
overwritten with "bbb" at time 5) resets `createdAt` to the overwrite time,
increments `ItemCount` a second time and adds the new size without
decrementing the old one — contradicting the claimed
`createdAt = 0`, `ItemCount = 1`, `TotalSize = 3`. -/
theorem set_overwrite_counterexample :
    (mapLookup c1mgr.db "k").map (fun it => it.entry.createdAt) = some 5 ∧
    c1mgr.stats.itemCount = 2 ∧
    c1mgr.stats.totalSize = 5 ∧
    ¬ ((mapLookup c1mgr.db "k").map (fun it => it.entry.createdAt) = some 0 ∧
       c1mgr.stats.itemCount = 1 ∧ c1mgr.stats.totalSize = 3) := by
  decide

/-- C1 (amended): `Manager.Set` overwrites any existing entry and always
resets both `createdAt` and `updatedAt` to the write time (also on
overwrite), and `recordSet` updates the counters unconditionally: `Sets` and
`ItemCount` are incremented and the new entry's size added to `TotalSize`
with no decrement of an overwritten entry's size, so overwriting an existing
key double-counts it in `ItemCount` and `TotalSize`. -/
theorem set_always_resets_metadata_and_counters (m : cache.Manager)
    (k v : String) (ttl now : Int) :
    mapLookup (m.set k v ttl now).db k =
      some { entry := { key := k, value := v, createdAt := now,
                        updatedAt := now, hitCount := 0,
                        size := (v.utf8ByteSize : Int), ttl := ttl },
             expiresAt := if 0 < ttl then some (now + ttl) else none } ∧
    (m.set k v ttl now).stats =
      { m.stats with
          sets := m.stats.sets + 1,
          totalSize := m.stats.totalSize + (v.utf8ByteSize : Int),
          itemCount := m.stats.itemCount + 1 } := by
  constructor
  · exact mapLookup_mapSet_self m.db k _
  · rfl

/-- C2 counterexample: on a fresh manager, deleting the absent key "a"
returns no error but drives `ItemCount` to −1, refuting both "decrements
only when a row was actually removed" and "`ItemCount` never goes
negative". -/
theorem delete_absent_negative_itemcount :
    (cache.freshManager.delete "a").1 = none ∧
    (cache.freshManager.delete "a").2.stats.itemCount = -1 ∧
    ¬ (0 ≤ (cache.freshManager.delete "a").2.stats.itemCount) := by
  decide

/-- C2 (amended): `Manager.Delete` swallows buntdb's `ErrNotFound`, so
deleting an absent key returns no error; but `recordDelete` runs
unconditionally — `Deletes` is incremented and `ItemCount` decremented even
when no row was removed — so `ItemCount` can go negative: a single Delete of
an absent key on a fresh manager leaves `ItemCount = -1`. -/
theorem delete_idempotent_but_decrements_unconditionally :
    (∀ (m : cache.Manager) (k : String),
      (m.delete k).1 = none ∧
      (m.delete k).2.stats =
        { m.stats with
            deletes := m.stats.deletes + 1,
            itemCount := m.stats.itemCount - 1 }) ∧
    (cache.freshManager.delete "a").2.stats.itemCount = -1 := by
  exact ⟨fun m k => ⟨rfl, rfl⟩, by decide⟩

/-- C3: after `Set(k, v, 0)` at time t0, `Get(k)` returns v at every later
query time (a zero TTL never expires); and for ttl > 0, after `Set(k, v,
ttl)` at t0, `Get(k)` at t1 returns v while `t1 - t0 ≤ ttl`, and once
`ttl < t1 - t0` it returns the NotFound-style "key not found" error — and
still does so after the background cleanup has run at any time t2, i.e.
regardless of whether the reaper has run. -/
theorem ttl_zero_never_expires_and_lazy_expiry (m : cache.Manager)
    (k v : String) (ttl t0 t1 t2 : Int)
    (hnd : (m.db.map Prod.fst).Nodup) :
    ((m.set k v 0 t0).get k t1).1 = .ok v ∧
    (0 < ttl → t1 - t0 ≤ ttl →
      ((m.set k v ttl t0).get k t1).1 = .ok v) ∧
    (0 < ttl → ttl < t1 - t0 →
      ((m.set k v ttl t0).get k t1).1 = .error (.keyNotFound k) ∧
      (((m.set k v ttl t0).cleanup t2).get k t1).1 =
        .error (.keyNotFound k)) := by
  refine ⟨?_, ?_, ?_⟩
  · simp [cache.Manager.set, cache.Manager.get, cache.Manager.recordSet,
      cache.dbGet, mapLookup_mapSet_self, cache.DBItem.buntdbExpired,
      cache.getExpiryCheck]
  · intro hpos hle
    have hb : ¬ (t0 + ttl < t1) := by omega
    have hg : ¬ (ttl < t1 - t0) := by omega
    simp [cache.Manager.set, cache.Manager.get, cache.Manager.recordSet,
      cache.dbGet, mapLookup_mapSet_self, cache.DBItem.buntdbExpired,
      cache.getExpiryCheck, hpos, hb, hg]
  · intro hpos hgt
    have hb : t0 + ttl < t1 := by omega
    constructor
    · simp [cache.Manager.set, cache.Manager.get, cache.Manager.recordSet,
        cache.dbGet, mapLookup_mapSet_self, cache.DBItem.buntdbExpired,
        cache.getExpiryCheck, hpos, hb]
    · have hnd2 : (((m.set k v ttl t0).db).map Prod.fst).Nodup := by
        simpa [cache.Manager.set, cache.Manager.recordSet] using
          nodup_keys_mapSet m.db k _ hnd
      have hlf := mapLookup_filter_nodup
        (fun kv => !(cache.cleanupExpiryCheck kv.2.entry.ttl
          kv.2.entry.updatedAt t2))
        ((m.set k v ttl t0).db) k hnd2
      have hset : mapLookup ((m.set k v ttl t0).db) k =
          some { entry := { key := k, value := v, createdAt := t0,
                            updatedAt := t0, hitCount := 0,
                            size := (v.utf8ByteSize : Int), ttl := ttl },
                 expiresAt := if 0 < ttl then some (t0 + ttl) else none } := by
        simpa [cache.Manager.set, cache.Manager.recordSet] using
          mapLookup_mapSet_self m.db k _
      rw [hset] at hlf
      by_cases hkeep : cache.cleanupExpiryCheck ttl t0 t2 = true
      · -- the reaper removed the row
        simp only [cache.Manager.cleanup] at *
        simp [cache.Manager.get, cache.dbGet, hlf, hkeep]
      · -- the reaper kept the row: the read-path check still rejects it
        simp only [cache.Manager.cleanup] at *
        simp [cache.Manager.get, cache.dbGet, hlf, hkeep,
          cache.DBItem.buntdbExpired, cache.getExpiryCheck, hpos, hb]

/-- C3 witness at a concrete instance: key "k", value "v", ttl 10, written at
time 0, read at time 5, reaper at time 20. -/
theorem ttl_zero_never_expires_and_lazy_expiry_witness :
    ((cache.freshManager.set "k" "v" 0 0).get "k" 5).1 = .ok "v" ∧
    (0 < (10 : Int) → (5 : Int) - 0 ≤ 10 →
      ((cache.freshManager.set "k" "v" 10 0).get "k" 5).1 = .ok "v") ∧
    (0 < (10 : Int) → (10 : Int) < 5 - 0 →
      ((cache.freshManager.set "k" "v" 10 0).get "k" 5).1 =
        .error (.keyNotFound "k") ∧
      (((cache.freshManager.set "k" "v" 10 0).cleanup 20).get "k" 5).1 =
        .error (.keyNotFound "k")) :=
  ttl_zero_never_expires_and_lazy_expiry cache.freshManager "k" "v" 10 0 5 20
    (by decide)

/-- C6: the lazy-expiry check on the Get read path and the deletion
condition of the background cleanup are the same predicate of
(ttl, updatedAt, now). -/
theorem get_cleanup_expiry_predicates_agree :
    ∀ ttl updatedAt now : Int,
      cache.getExpiryCheck ttl updatedAt now =
        cache.cleanupExpiryCheck ttl updatedAt now :=
  fun _ _ _ => rfl

/-- C8: when the scheduled hit-count update runs at time `now` on a readable
entry `e`, it stores the entry back with `HitCount` incremented by one and
`UpdatedAt = now` (clearing buntdb's own expiry metadata); since lazy expiry
is judged against `UpdatedAt`, the rewritten entry's logical expiry deadline
moves forward: any query time at which the rewritten entry is expired is one
at which the original entry was already expired. -/
theorem hit_bump_increments_and_pushes_deadline (m : cache.Manager)
    (k : String) (e : cache.CacheEntry) (now : Int)
    (h : cache.dbGet m.db k now = some e) (hup : e.updatedAt ≤ now) :
    ∃ m2, m.incrementHitCount k now = .ok m2 ∧
      mapLookup m2.db k =
        some { entry := { e with hitCount := e.hitCount + 1, updatedAt := now },
               expiresAt := none } ∧
      ∀ q, cache.getExpiryCheck e.ttl now q = true →
        cache.getExpiryCheck e.ttl e.updatedAt q = true := by
  simp only [cache.Manager.incrementHitCount, h]
  refine ⟨_, rfl, ?_, ?_⟩
  · exact mapLookup_mapSet_self m.db k _
  · intro q hq
    simp only [cache.getExpiryCheck, Bool.and_eq_true,
      decide_eq_true_eq] at hq ⊢
    omega

/-- C8 witness: the entry Set("k", "v", ttl 10) at time 0, bumped at
time 5. -/
theorem hit_bump_increments_and_pushes_deadline_witness :
    ∃ m2, c8mgr.incrementHitCount "k" 5 = .ok m2 ∧
      mapLookup m2.db "k" =
        some { entry :=
                 { c8entry with hitCount := c8entry.hitCount + 1, updatedAt := 5 },
               expiresAt := none } ∧
      ∀ q, cache.getExpiryCheck c8entry.ttl 5 q = true →
        cache.getExpiryCheck c8entry.ttl c8entry.updatedAt q = true :=
  hit_bump_increments_and_pushes_deadline c8mgr "k" c8entry 5 (by decide)
    (by decide)

theorem sendAttempts_no_token (doReq : Nat → Except claude.ReqError claude.Response)
    (fuel attempt : Nat) (lastErr : Option claude.ReqError) :
    countToken (claude.sendAttempts doReq attempt fuel lastErr).2 = 0 := by
  induction fuel generalizing attempt lastErr with
  | zero => rfl
  | succ n ih =>
    simp only [claude.sendAttempts]
    cases doReq attempt with
    | ok resp => rfl
    | error e =>
      cases hr : claude.isRetryableError e with
      | true => simp [hr, countToken, ih]
      | false => simp [hr, countToken]

/-- C10: one `SendMessage` call acquires exactly one rate-limiter token —
`limiter.Wait` runs once before the first attempt and the retry loop issues
further attempts without acquiring any additional token, whatever the
per-attempt outcomes are. -/
theorem send_message_single_token_acquisition
    (doReq : Nat → Except claude.ReqError claude.Response) :
    countToken (claude.sendMessage doReq).2 = 1 := by
  simp [claude.sendMessage, countToken, sendAttempts_no_token]

/-- C4: when every attempt fails with a retryable error, `SendMessage` makes
exactly `maxRetries` (3) attempts, sleeping `RetryDelay * 2^attempt` after
each failed attempt, and returns the max-retries-exceeded error wrapping the
last attempt's error; when the first attempt fails with a non-retryable
error (a 4xx other than 429), it returns that error immediately after a
single attempt, with no retry and no backoff sleep. -/
theorem send_message_retry_policy :
    (∀ (doReq : Nat → Except claude.ReqError claude.Response)
       (e : Nat → claude.ReqError),
       (∀ i, i < claude.maxRetries → doReq i = .error (e i)) →
       (∀ i, i < claude.maxRetries → claude.isRetryableError (e i) = true) →
       claude.sendMessage doReq =
         (.error (.maxRetriesExceeded (some (e 2))),
          [.acquireToken, .httpAttempt 0, .sleep (claude.RetryDelay * 2 ^ 0),
           .httpAttempt 1, .sleep (claude.RetryDelay * 2 ^ 1),
           .httpAttempt 2, .sleep (claude.RetryDelay * 2 ^ 2)])) ∧
    (∀ (doReq : Nat → Except claude.ReqError claude.Response)
       (e0 : claude.ReqError),
       doReq 0 = .error e0 → claude.isRetryableError e0 = false →
       claude.sendMessage doReq =
         (.error (.terminal e0), [.acquireToken, .httpAttempt 0])) := by
  constructor
  · intro doReq e hfail hretry
    have h0 := hfail 0 (by decide)
    have h1 := hfail 1 (by decide)
    have h2 := hfail 2 (by decide)
    have r0 := hretry 0 (by decide)
    have r1 := hretry 1 (by decide)
    have r2 := hretry 2 (by decide)
    simp [claude.sendMessage, claude.maxRetries, claude.sendAttempts,
      h0, h1, h2, r0, r1, r2]
  · intro doReq e0 h0 hr
    simp [claude.sendMessage, claude.maxRetries, claude.sendAttempts, h0, hr]

/-- C4 witness: a server answering 500 on every attempt yields three
attempts, the three backoff sleeps and the wrapped last error; a server
answering 400 yields a single attempt and the error returned directly. -/
theorem send_message_retry_policy_witness :
    claude.sendMessage always500 =
      (.error (.maxRetriesExceeded (some
          (.apiError ⟨500, "api_error", "internal server error"⟩))),
       [.acquireToken, .httpAttempt 0, .sleep (claude.RetryDelay * 2 ^ 0),
        .httpAttempt 1, .sleep (claude.RetryDelay * 2 ^ 1),
        .httpAttempt 2, .sleep (claude.RetryDelay * 2 ^ 2)]) ∧
    claude.sendMessage always400 =
      (.error (.terminal
          (.apiError ⟨400, "invalid_request_error", "bad request"⟩)),
       [.acquireToken, .httpAttempt 0]) :=
  ⟨send_message_retry_policy.1 always500
      (fun _ => .apiError ⟨500, "api_error", "internal server error"⟩)
      (fun _ _ => rfl) (fun _ _ => rfl),
   send_message_retry_policy.2 always400
      (.apiError ⟨400, "invalid_request_error", "bad request"⟩)
      rfl rfl⟩

theorem batchLoop_spec
    (f : analyzer.AnalysisRequest → Except String analyzer.SDKAnalysis)
    (reqs : List analyzer.AnalysisRequest)
    (results : List (String × analyzer.SDKAnalysis))
    (errors : List (String × String)) (tt : Nat)
    (hnd : (reqs.map (fun r => r.sdkName)).Nodup)
    (hres : ∀ r ∈ reqs, r.sdkName ∉ results.map Prod.fst)
    (herr : ∀ r ∈ reqs, r.sdkName ∉ errors.map Prod.fst) :
    (analyzer.batchLoop f reqs results errors tt).1 =
      results ++ reqs.filterMap (fun r =>
        match f r with
        | .ok a => some (r.sdkName, a)
        | .error _ => none) ∧
    (analyzer.batchLoop f reqs results errors tt).2.1 =
      errors ++ reqs.filterMap (fun r =>
        match f r with
        | .ok _ => none
        | .error e => some (r.sdkName, e)) := by
  induction reqs generalizing results errors tt with
  | nil => simp [analyzer.batchLoop]
  | cons r rest ih =>
    simp only [List.map_cons, List.nodup_cons] at hnd
    have hrres := hres r (List.mem_cons_self r rest)
    have hrerr := herr r (List.mem_cons_self r rest)
    have hrestres : ∀ x ∈ rest, x.sdkName ∉ results.map Prod.fst :=
      fun x hx => hres x (List.mem_cons_of_mem _ hx)
    have hresterr : ∀ x ∈ rest, x.sdkName ∉ errors.map Prod.fst :=
      fun x hx => herr x (List.mem_cons_of_mem _ hx)
    cases hf : f r with
    | ok a =>
      have hset := mapSet_eq_append results r.sdkName a hrres
      have hres2 : ∀ x ∈ rest,
          x.sdkName ∉ (mapSet results r.sdkName a).map Prod.fst := by
        intro x hx hmem
        rw [hset] at hmem
        simp only [List.map_append, List.mem_append] at hmem
        rcases hmem with hmem | hmem
        · exact hrestres x hx hmem
        · have hxe : x.sdkName = r.sdkName := by simpa using hmem
          exact hnd.1 (hxe ▸ List.mem_map_of_mem (fun r => r.sdkName) hx)
      have ih' := ih (mapSet results r.sdkName a) errors (tt + a.tokensUsed)
        hnd.2 hres2 hresterr
      constructor
      · rw [analyzer.batchLoop, hf, ih'.1, hset, List.append_assoc]
        simp [List.filterMap_cons, hf]
      · rw [analyzer.batchLoop, hf, ih'.2]
        simp [List.filterMap_cons, hf]
    | error e =>
      have hset := mapSet_eq_append errors r.sdkName e hrerr
      have herr2 : ∀ x ∈ rest,
          x.sdkName ∉ (mapSet errors r.sdkName e).map Prod.fst := by
        intro x hx hmem
        rw [hset] at hmem
        simp only [List.map_append, List.mem_append] at hmem
        rcases hmem with hmem | hmem
        · exact hresterr x hx hmem
        · have hxe : x.sdkName = r.sdkName := by simpa using hmem
          exact hnd.1 (hxe ▸ List.mem_map_of_mem (fun r => r.sdkName) hx)
      have ih' := ih results (mapSet errors r.sdkName e) tt
        hnd.2 hrestres herr2
      constructor
      · rw [analyzer.batchLoop, hf, ih'.1]
        simp [List.filterMap_cons, hf]
      · rw [analyzer.batchLoop, hf, ih'.2, hset, List.append_assoc]
        simp [List.filterMap_cons, hf]

/-- C5 (amended): `ClaudeAnalyzer.BatchAnalyze` always returns a nil error
with status "completed"; each request whose `AnalyzeCode` fails (remote
error, empty response, unparseable analysis) contributes exactly one entry
to the errors map and does not abort the remaining requests, while each
success contributes exactly one entry to the results map — so N requests
with distinct SDK names of which exactly one fails yield N−1 results and one
error entry.  However, a target that fails the extraction phase inside
`Analyzer.analyzeBatch` (clone, file extraction, or commit lookup) is
silently skipped before submission: it contributes neither a request nor an
error entry. -/
theorem batch_analyze_records_failures_individually :
    (∀ (f : analyzer.AnalysisRequest → Except String analyzer.SDKAnalysis)
       (requests : List analyzer.AnalysisRequest) (now : Int),
       (requests.map (fun r => r.sdkName)).Nodup →
       ∃ r, analyzer.ClaudeAnalyzer.batchAnalyze f requests now = .ok r ∧
         r.status = "completed" ∧ r.completedAt = some now ∧
         r.results = requests.filterMap (fun req =>
           match f req with
           | .ok a => some (req.sdkName, a)
           | .error _ => none) ∧
         r.errors = requests.filterMap (fun req =>
           match f req with
           | .ok _ => none
           | .error e => some (req.sdkName, e))) ∧
    (∀ (g : sdk.GitOracle) (sdks : List sdk.Config)
       (reqs : List analyzer.AnalysisRequest) (m : List (String × sdk.Config)),
       (∀ c ∈ sdks, ∃ e, g.clone c.url (sdk.branchOf c) = .error e) →
       sdk.buildRequestsLoop g sdks reqs m = (reqs, m)) := by
  constructor
  · intro f requests now hnd
    refine ⟨_, rfl, rfl, rfl, ?_, ?_⟩
    · simpa using (batchLoop_spec f requests [] [] 0 hnd (by simp) (by simp)).1
    · simpa using (batchLoop_spec f requests [] [] 0 hnd (by simp) (by simp)).2
  · intro g sdks reqs m hall
    induction sdks generalizing reqs m with
    | nil => rfl
    | cons c rest ih =>
      obtain ⟨e, he⟩ := hall c (List.mem_cons_self c rest)
      have ih' := ih reqs m (fun x hx => hall x (List.mem_cons_of_mem _ hx))
      simp [sdk.buildRequestsLoop, he, ih']

/-- C5 (amended) witness: a batch of the two requests "good"/"bad" where
exactly "bad" fails yields one result and one error entry; and a single
catalog entry whose clone fails is dropped without producing a request or an
error. -/
theorem batch_analyze_records_failures_individually_witness :
    (∃ r, analyzer.ClaudeAnalyzer.batchAnalyze cexFailingAnalyze
        [reqGood, reqBad] 0 = .ok r ∧
      r.status = "completed" ∧ r.completedAt = some 0 ∧
      r.results = [reqGood, reqBad].filterMap (fun req =>
        match cexFailingAnalyze req with
        | .ok a => some (req.sdkName, a)
        | .error _ => none) ∧
      r.errors = [reqGood, reqBad].filterMap (fun req =>
        match cexFailingAnalyze req with
        | .ok _ => none
        | .error e => some (req.sdkName, e))) ∧
    sdk.buildRequestsLoop cexOracle [cexA] [] [] = ([], []) :=
  ⟨batch_analyze_records_failures_individually.1 cexFailingAnalyze
      [reqGood, reqBad] 0 (by decide),
   batch_analyze_records_failures_individually.2 cexOracle [cexA] [] []
      (by
        intro c hc
        simp only [List.mem_singleton] at hc
        subst hc
        exact ⟨"exit status 128", rfl⟩)⟩

/-- C5 counterexample: a batch of two targets where exactly one (sdk-a)
fails — its clone fails during extraction — produces N−1 = 1 successful
result but zero error entries, not the claimed exactly-one error entry: the
failing target is silently dropped by `analyzeBatch` before submission. -/
theorem batch_one_failure_counterexample :
    ((sdk.analyzeBatch cexOracle
        (fun reqs => analyzer.ClaudeAnalyzer.batchAnalyze cexAnalyze reqs 100)
        cexAnalyze [cexA, cexB]).1.filter
          (fun r => r.error.isSome)).length = 0 ∧
    ((sdk.analyzeBatch cexOracle
        (fun reqs => analyzer.ClaudeAnalyzer.batchAnalyze cexAnalyze reqs 100)
        cexAnalyze [cexA, cexB]).1.filter
          (fun r => r.analysis.isSome)).length = 1 ∧
    ¬ (((sdk.analyzeBatch cexOracle
        (fun reqs => analyzer.ClaudeAnalyzer.batchAnalyze cexAnalyze reqs 100)
        cexAnalyze [cexA, cexB]).1.filter
          (fun r => r.error.isSome)).length = 1) := by
  decide

/-- C9: `BatchAnalyze` returns a nil error for both analyzer variants — all
per-item failures are carried inside the result's errors map — and
consequently the fall-back branch of `Analyzer.analyzeBatch`, which resorts
to one-by-one `AnalyzeSDK` submission only when the combined call returns a
non-nil error, can never be taken when the batch function is either
variant. -/
theorem batch_analyze_fallback_unreachable :
    (∀ (f : analyzer.AnalysisRequest → Except String analyzer.SDKAnalysis)
       (requests : List analyzer.AnalysisRequest) (now : Int),
       ∃ r, analyzer.ClaudeAnalyzer.batchAnalyze f requests now = .ok r) ∧
    (∀ (requests : List analyzer.AnalysisRequest) (now : Int),
       ∃ r, worker.mockBatchAnalyze requests now = .ok r) ∧
    (∀ (g : sdk.GitOracle)
       (f f2 : analyzer.AnalysisRequest → Except String analyzer.SDKAnalysis)
       (sdks : List sdk.Config) (now : Int),
       (sdk.analyzeBatch g
         (fun reqs => analyzer.ClaudeAnalyzer.batchAnalyze f reqs now)
         f2 sdks).2 = false) ∧
    (∀ (g : sdk.GitOracle)
       (f2 : analyzer.AnalysisRequest → Except String analyzer.SDKAnalysis)
       (sdks : List sdk.Config) (now : Int),
       (sdk.analyzeBatch g (fun reqs => worker.mockBatchAnalyze reqs now)
         f2 sdks).2 = false) := by
  refine ⟨fun f requests now => ⟨_, rfl⟩, fun requests now => ⟨_, rfl⟩,
    fun g f f2 sdks now => rfl, fun g f2 sdks now => rfl⟩

/-- C7: `NeedsUpdate` returns true exactly when the cache lookup of
`sdk:<name>:last_analyzed` misses, or the stored timestamp is unparseable,
or the local repository copy is missing, or git reports commits since the
parsed timestamp; and it returns false exactly when the timestamp is
present, parseable, the repository exists and there are no new commits
(provided the commit query itself succeeds). -/
theorem needs_update_characterization (m : cache.Manager)
    (parseTime : String → Option Int) (repoExists : Bool)
    (commitsOf : Int → List git.Commit)
    (getCommitsSince : Int → Except String (List git.Commit))
    (name : String) (now : Int)
    (hC : ∀ t, getCommitsSince t = .ok (commitsOf t)) :
    (sdk.needsUpdate m parseTime repoExists getCommitsSince name now =
        .ok true ↔
      (∃ err, (m.get ("sdk:" ++ name ++ ":last_analyzed") now).1 =
        .error err) ∨
      (∃ s, (m.get ("sdk:" ++ name ++ ":last_analyzed") now).1 = .ok s ∧
        (parseTime s = none ∨
         ∃ t, parseTime s = some t ∧
           (repoExists = false ∨ commitsOf t ≠ [])))) ∧
    (sdk.needsUpdate m parseTime repoExists getCommitsSince name now =
        .ok false ↔
      ∃ s t, (m.get ("sdk:" ++ name ++ ":last_analyzed") now).1 = .ok s ∧
        parseTime s = some t ∧ repoExists = true ∧ commitsOf t = []) := by
  cases hr : (m.get ("sdk:" ++ name ++ ":last_analyzed") now).1 with
  | error err => constructor <;> simp [sdk.needsUpdate, hr]
  | ok s =>
    cases hp : parseTime s with
    | none => constructor <;> simp [sdk.needsUpdate, hr, hp]
    | some t =>
      cases hre : repoExists with
      | false => constructor <;> simp [sdk.needsUpdate, hr, hp, hre]
      | true =>
        constructor <;>
          simp [sdk.needsUpdate, hr, hp, hre, hC t, List.length_pos,
            List.length_eq_zero, decide_eq_true_eq]

/-- C7 witness: on a fresh manager the last-analyzed key misses, so
`NeedsUpdate` reports true. -/
theorem needs_update_characterization_witness :
    (sdk.needsUpdate cache.freshManager (fun _ => none) true
        (fun _ => .ok []) "sentry-go" 0 = .ok true ↔
      (∃ err, (cache.freshManager.get
          ("sdk:" ++ "sentry-go" ++ ":last_analyzed") 0).1 = .error err) ∨
      (∃ s, (cache.freshManager.get
          ("sdk:" ++ "sentry-go" ++ ":last_analyzed") 0).1 = .ok s ∧
        ((fun (_ : String) => (none : Option Int)) s = none ∨
         ∃ t, (fun (_ : String) => (none : Option Int)) s = some t ∧
           (true = false ∨ (fun (_ : Int) => ([] : List git.Commit)) t ≠ [])))) ∧
    (sdk.needsUpdate cache.freshManager (fun _ => none) true
        (fun _ => .ok []) "sentry-go" 0 = .ok false ↔
      ∃ s t, (cache.freshManager.get
          ("sdk:" ++ "sentry-go" ++ ":last_analyzed") 0).1 = .ok s ∧
        (fun (_ : String) => (none : Option Int)) s = some t ∧
        true = true ∧ (fun (_ : Int) => ([] : List git.Commit)) t = []) :=
  needs_update_characterization cache.freshManager (fun _ => none) true
    (fun _ => []) (fun _ => .ok []) "sentry-go" 0 (fun _ => rfl)
